import Mathlib

/-!
Shallow embedding of the callable-value subsystem of the boa runtime
(`src/boa/src/builtins/function/mod.rs`): the `Function` variant type, the
bound-wrapper entity, and the `apply` / `bind` / `call` / `toString` /
`SetFunctionName` / `make_builtin_fn` operations, together with theorems
checking the specification's claims about them.

Machine floats are modelled as an integer-or-infinity-aware number type with
rational finite values; the object/property system (an external collaborator
of this module) is modelled as a heap of objects with data properties.
-/

namespace Boa

/-- Object identity: objects live in a heap and are referred to by index. -/
abbrev ObjId := Nat

/-- A runtime symbol: an identity together with an optional description,
as used by `SetFunctionName` (`sym.description()`). -/
structure JsSymbol where
  hash : Nat
  description : Option String
  deriving DecidableEq, Repr

/-- The JavaScript number domain as far as this module observes it:
NaN, the two infinities, and finite values (modelled as rationals, which
faithfully cover every finite double for the truncation and comparison
operations used here). -/
inductive JsNumber
  | nan
  | posInf
  | negInf
  | finite (q : ℚ)
  deriving DecidableEq, Repr

/-- A JavaScript value, restricted to the shapes this module inspects. -/
inductive JsValue
  | undefined
  | null
  | boolean (b : Bool)
  | number (n : JsNumber)
  | string (s : String)
  | symbol (sym : JsSymbol)
  | object (o : ObjId)
  deriving DecidableEq, Repr

/-- Property keys, mirroring boa's `PropertyKey`. -/
inductive PropertyKey
  | string (s : String)
  | symbol (sym : JsSymbol)
  | index (i : Nat)
  deriving DecidableEq, Repr

/-- A data property descriptor (attributes as used by this module:
accessors are out of scope, the object system is an external collaborator). -/
structure PropertyDescriptor where
  value : JsValue
  writable : Bool
  enumerable : Bool
  configurable : Bool
  deriving DecidableEq, Repr

/-- The `this`-binding mode of an interpreted function (source `ThisMode`). -/
inductive ThisMode
  | lexical
  | strict
  | global
  deriving DecidableEq, Repr

/-- Modelled from the spec: AST declarations of formal parameters (the AST
lives in the external syntax module); only the identifier of an identifier
declaration and the identifier list of a pattern are observed here. -/
inductive Declaration
  | identifier (ident : String)
  | pattern (idents : List String)
  deriving DecidableEq, Repr

/-- A formal parameter of an interpreted function (source `FormalParameter`);
only its declaration is observed in this module. -/
structure FormalParameter where
  declaration : Declaration
  is_rest_param : Bool
  deriving DecidableEq, Repr

/-- Modelled from the spec: a shared, reference-counted parsed statement list
(source `RcStatementList`, external AST); only its textual rendering
(`to_string`) is observable in this module. -/
structure RcStatementList where
  text : String
  deriving DecidableEq, Repr

/-- The callable variant sum type (source `Function`). Native entry points
and capture cells are identified by opaque tags: their dispatch behavior is
the execution engine's concern, an external collaborator. The feature-gated
`VmOrdinary` variant is compiled out in the default configuration. -/
inductive Function
  | native (function : Nat) (constructor : Bool)
  | closure (function : Nat) (constructor : Bool) (captures : Nat)
  | ordinary (constructor : Bool) (this_mode : ThisMode) (body : RcStatementList)
      (params : List FormalParameter) (environment : Nat)
  deriving DecidableEq, Repr

/-- Source `Function::is_constructor`: the variant-local constructor flag. -/
def Function.is_constructor : Function → Bool
  | Function.native _ c => c
  | Function.closure _ c _ => c
  | Function.ordinary c _ _ _ _ => c

/-- The bound wrapper entity (source `BoundFunction`): the target callable,
the fixed receiver and the owned sequence of prepended arguments. -/
structure BoundFunction where
  target_function : ObjId
  this : JsValue
  args : List JsValue
  deriving DecidableEq, Repr

/-- The data slot of a heap object: a plain object, a function object, or a
bound-function exotic object (`ObjectData::bound_function(bf, constructor)`
stores the wrapper's constructor capability next to the wrapper). -/
inductive ObjectData
  | ordinary
  | function (f : Function)
  | boundFunction (bf : BoundFunction) (constructor : Bool)
  deriving DecidableEq, Repr

/-- A heap object: prototype, data slot, and own data properties. -/
structure ObjectState where
  prototype : JsValue
  data : ObjectData
  properties : List (PropertyKey × PropertyDescriptor)
  deriving DecidableEq, Repr

/-- The object heap: allocation appends, identity is the index. -/
structure Heap where
  objects : List ObjectState
  deriving DecidableEq, Repr

/-- Look an object up by identity. -/
def objectAt (heap : Heap) (id : ObjId) : Option ObjectState :=
  heap.objects[id]?

/-- Allocate a fresh object, returning the new heap and the fresh identity. -/
def alloc (heap : Heap) (obj : ObjectState) : Heap × ObjId :=
  (⟨heap.objects ++ [obj]⟩, heap.objects.length)

/-- Replace the object stored at an identity. -/
def updateAt (heap : Heap) (id : ObjId) (obj : ObjectState) : Heap :=
  ⟨heap.objects.set id obj⟩

/-- First own property stored under a key. -/
def findProp : List (PropertyKey × PropertyDescriptor) → PropertyKey →
    Option PropertyDescriptor
  | [], _ => none
  | (k, d) :: rest, key => if k = key then some d else findProp rest key

/-- Insert or overwrite the own property stored under a key. -/
def upsert : List (PropertyKey × PropertyDescriptor) → PropertyKey →
    PropertyDescriptor → List (PropertyKey × PropertyDescriptor)
  | [], key, desc => [(key, desc)]
  | (k, d) :: rest, key, desc =>
    if k = key then (key, desc) :: rest else (k, d) :: upsert rest key desc

/-- Own-property lookup (`__get_own_property__`). -/
def getOwnProperty (heap : Heap) (id : ObjId) (key : PropertyKey) :
    Option PropertyDescriptor :=
  match objectAt heap id with
  | some obj => findProp obj.properties key
  | none => none

/-- `HasOwnProperty`, as used by `bind` (`target.has_own_property`). -/
def hasOwnProperty (heap : Heap) (id : ObjId) (key : PropertyKey) : Bool :=
  (getOwnProperty heap id key).isSome

/-- Install a data property (models both `insert_property` and
`define_property_or_throw` on the fresh simple objects of this module). -/
def defineProperty (heap : Heap) (id : ObjId) (key : PropertyKey)
    (desc : PropertyDescriptor) : Heap :=
  match objectAt heap id with
  | some obj => updateAt heap id ⟨obj.prototype, obj.data, upsert obj.properties key desc⟩
  | none => heap

/-- Prototype-chain property read with explicit fuel (the chain is finite in
any well-formed heap; fuel makes the walk total). -/
def getWithFuel (heap : Heap) : Nat → ObjId → PropertyKey → JsValue
  | 0, _, _ => JsValue.undefined
  | Nat.succ fuel, id, key =>
    match objectAt heap id with
    | none => JsValue.undefined
    | some obj =>
      match findProp obj.properties key with
      | some desc => desc.value
      | none =>
        match obj.prototype with
        | JsValue.object p => getWithFuel heap fuel p key
        | _ => JsValue.undefined

/-- Ordinary `Get`: walk the prototype chain for a data property
(the object system is an external collaborator; accessor properties are out
of scope). The heap size bounds every acyclic chain. -/
def get (heap : Heap) (id : ObjId) (key : PropertyKey) : JsValue :=
  getWithFuel heap heap.objects.length id key

/-- Source `JsValue::is_null_or_undefined`. -/
def JsValue.is_null_or_undefined : JsValue → Bool
  | JsValue.undefined => true
  | JsValue.null => true
  | _ => false

/-- Modelled from the spec: the callable-capability query
(`JsValue::as_callable`, object module): a value is callable exactly when it
is an object whose data slot is a function or a bound wrapper. -/
def asCallable (heap : Heap) (v : JsValue) : Option ObjId :=
  match v with
  | JsValue.object id =>
    match objectAt heap id with
    | some obj =>
      match obj.data with
      | ObjectData.function _ => some id
      | ObjectData.boundFunction _ _ => some id
      | ObjectData.ordinary => none
    | none => none
  | _ => none

/-- Modelled from the spec: the object-level is-constructor query
(`JsObject::is_constructor`, object module) delegates to the variant-local
constructor flag (`Function::is_constructor`, which is in this module) or to
the bound wrapper's stored constructor capability. -/
def JsObject.is_constructor (heap : Heap) (id : ObjId) : Bool :=
  match objectAt heap id with
  | some obj =>
    match obj.data with
    | ObjectData.function f => f.is_constructor
    | ObjectData.boundFunction _ c => c
    | ObjectData.ordinary => false
  | none => false

/-- A failure value: this module only constructs TypeError-class failures
(`context.construct_type_error`). -/
inductive JsError
  | typeError (msg : String)
  deriving DecidableEq, Repr

/-- The invocation a protocol operation forwards to: the dispatch itself
(`JsObject::call`, execution engine) is an external collaborator, so the
embedding of `apply` / `call` returns the target, receiver and argument list
it hands to dispatch. -/
structure Invocation where
  func : ObjId
  receiver : JsValue
  args : List JsValue
  deriving DecidableEq, Repr

/-- Source `IntegerOrInfinity` (value module): the codomain of
`ToIntegerOrInfinity`. -/
inductive IntegerOrInfinity
  | positiveInfinity
  | negativeInfinity
  | integer (n : Int)
  deriving DecidableEq, Repr

/-- Truncation toward zero of a rational, as `ToIntegerOrInfinity` truncates
a finite double. -/
def ratTrunc (q : ℚ) : Int :=
  Int.tdiv q.num q.den

/-- `ToIntegerOrInfinity` on a number: NaN and signed zeros go to 0, the
infinities are kept, finite values are truncated toward zero. -/
def toIntegerOrInfinity : JsNumber → IntegerOrInfinity
  | JsNumber.nan => IntegerOrInfinity.integer 0
  | JsNumber.posInf => IntegerOrInfinity.positiveInfinity
  | JsNumber.negInf => IntegerOrInfinity.negativeInfinity
  | JsNumber.finite q => IntegerOrInfinity.integer (ratTrunc q)

/-- Modelled from the spec: conversion of a string name to a property key
(`From<JsString> for PropertyKey`, property module): the name source keeps
its textual form. -/
def stringToPropertyKey (s : String) : PropertyKey :=
  PropertyKey.string s

/-- Source `set_function_name`, step 2: derive the displayed name from the
name source. A symbol with a description displays as `[description]`, one
without as the empty string; strings and indices use their textual form. -/
def functionName : PropertyKey → String
  | PropertyKey.symbol sym =>
    match sym.description with
    | some desc => "[" ++ desc ++ "]"
    | none => ""
  | PropertyKey.string s => s
  | PropertyKey.index i => toString i

/-- Source `set_function_name`: derive the displayed name, prepend the
optional prefix separated by a space, and install the result as a
non-writable, non-enumerable, configurable `name` property. -/
def set_function_name (heap : Heap) (function : ObjId) (name : PropertyKey)
    (pfx : Option String) : Heap :=
  let name : String := functionName name
  let name : String :=
    match pfx with
    | some p => p ++ " " ++ name
    | none => name
  defineProperty heap function (PropertyKey.string "name")
    ⟨JsValue.string name, false, false, true⟩

/-- Source `BoundFunction::create` (`BoundFunctionCreate`): read the target's
prototype and is-constructor answer at creation time and allocate the wrapper
object carrying the target, the fixed receiver and the prepended arguments. -/
def BoundFunction.create (heap : Heap) (target_function : ObjId) (this : JsValue)
    (args : List JsValue) : Heap × ObjId :=
  let proto : JsValue :=
    match objectAt heap target_function with
    | some obj => obj.prototype
    | none => JsValue.undefined
  let is_constructor := JsObject.is_constructor heap target_function
  alloc heap ⟨proto, ObjectData.boundFunction ⟨target_function, this, args⟩ is_constructor, []⟩

/-- The bound-wrapper data stored in an object, when there is one. -/
def boundData (heap : Heap) (id : ObjId) : Option BoundFunction :=
  match objectAt heap id with
  | some obj =>
    match obj.data with
    | ObjectData.boundFunction bf _ => some bf
    | _ => none
  | none => none

/-- Modelled from the spec: the bound wrapper's invocation behavior (the
`[[Call]]` internal method of bound function exotic objects lives in the
object module): it forwards to the stored target using the wrapper's stored
receiver — ignoring whatever receiver the caller supplied — and the stored
prepended arguments followed by the caller's arguments, in that order. -/
def boundFunctionCallInternal (bf : BoundFunction) (_callerReceiver : JsValue)
    (callerArgs : List JsValue) : Invocation :=
  ⟨bf.target_function, bf.this, bf.args ++ callerArgs⟩

/-- Modelled from the spec: the ECMAScript ToString conversion used to render
the `name` property in `to_string` (the conversion lives outside this
module). Only the primitive cases are observable here; symbols and objects
fail with a TypeError-class value. -/
def jsToStringValue : JsValue → Except JsError String
  | JsValue.undefined => Except.ok "undefined"
  | JsValue.null => Except.ok "null"
  | JsValue.boolean b => Except.ok (if b then "true" else "false")
  | JsValue.string s => Except.ok s
  | JsValue.number JsNumber.nan => Except.ok "NaN"
  | JsValue.number JsNumber.posInf => Except.ok "Infinity"
  | JsValue.number JsNumber.negInf => Except.ok "-Infinity"
  | JsValue.number (JsNumber.finite q) => Except.ok (toString q.num)
  | JsValue.symbol _ => Except.error (JsError.typeError "can't convert symbol to string")
  | JsValue.object _ => Except.error (JsError.typeError "cannot convert object to primitive value")

/-- Rust's `str::lines` semantics: split on newline; a trailing final newline
does not produce a final empty line. -/
def rustLines (s : String) : List String :=
  let parts := s.splitOn "\n"
  if s.endsWith "\n" then parts.dropLast else parts

namespace BuiltInFunctionObject

/-- Source `BuiltInFunctionObject::apply` (`Function.prototype.apply`).
The display of the offending value and the `CreateListFromArrayLike`
conversion are external collaborators and are passed as parameters; the
operation returns the invocation it forwards to dispatch. -/
def apply (display : JsValue → String)
    (create_list_from_array_like : JsValue → Except JsError (List JsValue))
    (heap : Heap) (this : JsValue) (args : List JsValue) :
    Except JsError Invocation :=
  match asCallable heap this with
  | none => Except.error (JsError.typeError (display this ++ " is not a function"))
  | some func =>
    let this_arg := args.getD 0 JsValue.undefined
    let arg_array := args.getD 1 JsValue.undefined
    if arg_array.is_null_or_undefined then
      Except.ok ⟨func, this_arg, []⟩
    else
      match create_list_from_array_like arg_array with
      | Except.error e => Except.error e
      | Except.ok arg_list => Except.ok ⟨func, this_arg, arg_list⟩

/-- Source `BuiltInFunctionObject::bind` (`Function.prototype.bind`):
resolve the callable capability, create the bound wrapper, compute and
install the derived `length`, then the derived `name` prefixed with
`bound`. -/
def bind (heap : Heap) (this : JsValue) (args : List JsValue) :
    Except JsError (Heap × ObjId) :=
  match asCallable heap this with
  | none =>
    Except.error (JsError.typeError "cannot bind `this` without a `[[Call]]` internal method")
  | some target =>
    let this_arg := args.getD 0 JsValue.undefined
    let bound_args := args.drop 1
    let arg_count : Int := bound_args.length
    let fh := BoundFunction.create heap target this_arg bound_args
    let h1 := fh.1
    let f := fh.2
    let l : JsValue :=
      if hasOwnProperty h1 target (PropertyKey.string "length") then
        match get h1 target (PropertyKey.string "length") with
        | JsValue.number num =>
          match toIntegerOrInfinity num with
          | IntegerOrInfinity.positiveInfinity => JsValue.number JsNumber.posInf
          | IntegerOrInfinity.negativeInfinity => JsValue.number (JsNumber.finite 0)
          | IntegerOrInfinity.integer target_len =>
            JsValue.number (JsNumber.finite ((max (target_len - arg_count) 0 : Int) : ℚ))
        | _ => JsValue.number (JsNumber.finite 0)
      else JsValue.number (JsNumber.finite 0)
    let h2 := defineProperty h1 f (PropertyKey.string "length") ⟨l, false, false, true⟩
    let target_name := get h2 target (PropertyKey.string "name")
    let target_name_str : String :=
      match target_name with
      | JsValue.string s => s
      | _ => ""
    let h3 := set_function_name h2 f (stringToPropertyKey target_name_str) (some "bound")
    Except.ok (h3, f)

/-- Source `BuiltInFunctionObject::call` (`Function.prototype.call`):
resolve the callable capability and forward to dispatch with the first
argument as receiver (undefined when omitted) and the remaining arguments
unchanged. -/
def call (display : JsValue → String) (heap : Heap) (this : JsValue)
    (args : List JsValue) : Except JsError Invocation :=
  match asCallable heap this with
  | none => Except.error (JsError.typeError (display this ++ " is not a function"))
  | some func =>
    Except.ok ⟨func, args.getD 0 JsValue.undefined, args.drop 1⟩

/-- Source `BuiltInFunctionObject::to_string` (`Function.prototype.toString`):
TypeError for non-function receivers, a fixed native rendering for `Native`
functions with a resolvable name, a parameter-list and body rendering for
`Ordinary` functions, and the placeholder rendering for everything else. -/
def to_string (heap : Heap) (this : JsValue) : Except JsError JsValue :=
  match this with
  | JsValue.object id =>
    match objectAt heap id with
    | none => Except.error (JsError.typeError "Not a function")
    | some obj =>
      match obj.data with
      | ObjectData.function function =>
        let value := get heap id (PropertyKey.string "name")
        let nameRes : Except JsError (Option String) :=
          if value.is_null_or_undefined then Except.ok none
          else
            match jsToStringValue value with
            | Except.ok s => Except.ok (some s)
            | Except.error e => Except.error e
        match nameRes with
        | Except.error e => Except.error e
        | Except.ok name =>
          match function, name with
          | Function.native _ _, some name =>
            Except.ok (JsValue.string ("function " ++ name ++ "() \x7b\n  [native Code]\n\x7d"))
          | Function.ordinary _ _ body params _, some name =>
            let arguments := String.intercalate ","
              (params.map fun p =>
                match p.declaration with
                | Declaration.identifier ident => ident
                | Declaration.pattern idents =>
                  "\x7b" ++ String.intercalate "," idents ++ "\x7d")
            let is_multiline := (rustLines body.text).length > 1
            if is_multiline then
              Except.ok (JsValue.string (name ++ "(" ++ arguments ++ ") \x7b\n" ++ body.text ++ "\x7d"))
            else
              Except.ok (JsValue.string (name ++ "(" ++ arguments ++ ") \x7b" ++ body.text.trim ++ "\x7d"))
          | _, _ => Except.ok (JsValue.string "TODO")
      | _ => Except.error (JsError.typeError "Not a function")
  | _ => Except.error (JsError.typeError "Not a function")

end BuiltInFunctionObject

/-- Source `make_builtin_fn`: allocate a non-constructor `Native` function
object under the standard function prototype, install its `length` and
`name` as non-writable, non-enumerable, configurable properties, and install
the function on the parent under its name. The created object's identity is
also returned so the result can be specified. -/
def make_builtin_fn (heap : Heap) (function : Nat) (name : String)
    (parent : ObjId) (length : Nat) (function_prototype : JsValue) :
    Heap × ObjId :=
  let fh := alloc heap
    ⟨function_prototype, ObjectData.function (Function.native function false), []⟩
  let h1 := fh.1
  let fid := fh.2
  let h2 := defineProperty h1 fid (PropertyKey.string "length")
    ⟨JsValue.number (JsNumber.finite (length : ℚ)), false, false, true⟩
  let h3 := defineProperty h2 fid (PropertyKey.string "name")
    ⟨JsValue.string name, false, false, true⟩
  let h4 := defineProperty h3 parent (stringToPropertyKey name)
    ⟨JsValue.object fid, true, false, true⟩
  (h4, fid)

/-! Concrete heaps used by the witness theorems. -/

/-- A native function object with `length` 5 and `name` `f`. -/
def exampleObj : ObjectState :=
  ⟨JsValue.null, ObjectData.function (Function.native 0 false),
    [(PropertyKey.string "length", ⟨JsValue.number (JsNumber.finite 5), false, false, true⟩),
     (PropertyKey.string "name", ⟨JsValue.string "f", false, false, true⟩)]⟩

/-- A native-closure function object named `g`. -/
def exampleClosureObj : ObjectState :=
  ⟨JsValue.null, ObjectData.function (Function.closure 1 false 0),
    [(PropertyKey.string "name", ⟨JsValue.string "g", false, false, true⟩)]⟩

/-- A plain non-callable object. -/
def examplePlainObj : ObjectState :=
  ⟨JsValue.null, ObjectData.ordinary, []⟩

/-- A three-object heap: a native function, a native closure, and a plain
object. -/
def exampleHeap : Heap :=
  ⟨[exampleObj, exampleClosureObj, examplePlainObj]⟩

/-- Whether the first character sequence occurs contiguously inside the
second (used to check what a thrown message mentions). -/
def containsSeq (needle : List Char) : List Char → Bool
  | [] => needle.isEmpty
  | c :: rest => needle.isPrefixOf (c :: rest) || containsSeq needle rest

/-- A concrete stand-in for the external display collaborator. -/
def exampleDisplay : JsValue → String :=
  fun _ => "undefined"

/-- A concrete stand-in for the external `CreateListFromArrayLike`
collaborator: objects convert to a fixed two-element list, everything else
fails. -/
def exampleConv : JsValue → Except JsError (List JsValue) :=
  fun v =>
    match v with
    | JsValue.object _ => Except.ok [JsValue.string "c", JsValue.string "d"]
    | _ => Except.error (JsError.typeError "CreateListFromArrayLike called on non-object")

/-! Heap and property lemmas. -/

theorem objectAt_some_lt {heap : Heap} {id : ObjId} {obj : ObjectState}
    (h : objectAt heap id = some obj) : id < heap.objects.length := by
  unfold objectAt at h
  exact (List.getElem?_eq_some_iff.mp h).1

theorem alloc_snd (heap : Heap) (obj : ObjectState) :
    (alloc heap obj).2 = heap.objects.length := rfl

theorem objectAt_alloc_self (heap : Heap) (obj : ObjectState) :
    objectAt (alloc heap obj).1 (alloc heap obj).2 = some obj := by
  unfold objectAt alloc
  exact List.getElem?_concat_length _ _

/-- The allocation lemma restated with the fresh index spelled out. -/
theorem objectAt_alloc_self' (heap : Heap) (obj : ObjectState) :
    objectAt (alloc heap obj).1 heap.objects.length = some obj :=
  objectAt_alloc_self heap obj

theorem objectAt_alloc_lt {heap : Heap} {id : ObjId} (obj : ObjectState)
    (h : id < heap.objects.length) :
    objectAt (alloc heap obj).1 id = objectAt heap id := by
  unfold objectAt alloc
  exact List.getElem?_append_left h

theorem objectAt_updateAt_self {heap : Heap} {id : ObjId} (obj : ObjectState)
    (h : id < heap.objects.length) :
    objectAt (updateAt heap id obj) id = some obj := by
  unfold objectAt updateAt
  exact List.getElem?_set_self h

theorem objectAt_updateAt_ne {heap : Heap} {i j : ObjId} (obj : ObjectState)
    (h : j ≠ i) :
    objectAt (updateAt heap j obj) i = objectAt heap i := by
  unfold objectAt updateAt
  exact List.getElem?_set_ne h

theorem objectAt_defineProperty_self {heap : Heap} {id : ObjId} {obj : ObjectState}
    (h : objectAt heap id = some obj) (key : PropertyKey) (desc : PropertyDescriptor) :
    objectAt (defineProperty heap id key desc) id =
      some ⟨obj.prototype, obj.data, upsert obj.properties key desc⟩ := by
  unfold defineProperty
  rw [h]
  exact objectAt_updateAt_self _ (objectAt_some_lt h)

theorem objectAt_defineProperty_ne {heap : Heap} {i j : ObjId}
    (h : j ≠ i) (key : PropertyKey) (desc : PropertyDescriptor) :
    objectAt (defineProperty heap j key desc) i = objectAt heap i := by
  unfold defineProperty
  cases hobj : objectAt heap j with
  | none => rfl
  | some obj => exact objectAt_updateAt_ne _ h

theorem findProp_upsert_self (props : List (PropertyKey × PropertyDescriptor))
    (key : PropertyKey) (desc : PropertyDescriptor) :
    findProp (upsert props key desc) key = some desc := by
  induction props with
  | nil => simp [upsert, findProp]
  | cons kd rest ih =>
    obtain ⟨k, d⟩ := kd
    by_cases h : k = key
    · simp [upsert, findProp, h]
    · simp [upsert, findProp, h, ih]

theorem findProp_upsert_ne (props : List (PropertyKey × PropertyDescriptor))
    {key k' : PropertyKey} (desc : PropertyDescriptor) (h : k' ≠ key) :
    findProp (upsert props key desc) k' = findProp props k' := by
  induction props with
  | nil => simp [upsert, findProp, Ne.symm h]
  | cons kd rest ih =>
    obtain ⟨k, d⟩ := kd
    by_cases hk : k = key
    · subst hk
      simp [upsert, findProp, Ne.symm h]
    · simp [upsert, findProp, hk, ih]

theorem getWithFuel_own_hit {heap : Heap} {id : ObjId} {key : PropertyKey}
    {obj : ObjectState} {desc : PropertyDescriptor}
    (hobj : objectAt heap id = some obj)
    (hfind : findProp obj.properties key = some desc) :
    ∀ fuel, fuel ≠ 0 → getWithFuel heap fuel id key = desc.value := by
  intro fuel hf
  cases fuel with
  | zero => exact absurd rfl hf
  | succ n => simp [getWithFuel, hobj, hfind]

/-- A present own data property decides an ordinary `Get` at its holder. -/
theorem get_own_hit {heap : Heap} {id : ObjId} {key : PropertyKey}
    {obj : ObjectState} {desc : PropertyDescriptor}
    (hobj : objectAt heap id = some obj)
    (hfind : findProp obj.properties key = some desc) :
    get heap id key = desc.value := by
  have hlt := objectAt_some_lt hobj
  exact getWithFuel_own_hit hobj hfind _ (Nat.lt_of_le_of_lt (Nat.zero_le _) hlt).ne'

/-- With no own property and no object prototype, `Get` yields undefined. -/
theorem get_own_miss {heap : Heap} {id : ObjId} {key : PropertyKey}
    {obj : ObjectState}
    (hobj : objectAt heap id = some obj)
    (hfind : findProp obj.properties key = none)
    (hproto : ∀ p, obj.prototype ≠ JsValue.object p) :
    get heap id key = JsValue.undefined := by
  have hlt := objectAt_some_lt hobj
  have hne : heap.objects.length ≠ 0 := (Nat.lt_of_le_of_lt (Nat.zero_le _) hlt).ne'
  obtain ⟨n, hn⟩ := Nat.exists_eq_succ_of_ne_zero hne
  unfold get
  rw [hn]
  simp only [getWithFuel, hobj, hfind]

theorem asCallable_some {heap : Heap} {v : JsValue} {t : ObjId}
    (h : asCallable heap v = some t) :
    v = JsValue.object t ∧ ∃ obj, objectAt heap t = some obj := by
  cases v with
  | object id =>
    simp only [asCallable] at h
    cases hobj : objectAt heap id with
    | none => rw [hobj] at h; simp at h
    | some obj =>
      obtain ⟨proto, data, props⟩ := obj
      rw [hobj] at h
      cases data with
      | ordinary => simp at h
      | function f =>
        simp at h
        subst h
        exact ⟨rfl, ⟨proto, ObjectData.function f, props⟩, hobj⟩
      | boundFunction bf c =>
        simp at h
        subst h
        exact ⟨rfl, ⟨proto, ObjectData.boundFunction bf c, props⟩, hobj⟩
  | undefined => simp [asCallable] at h
  | null => simp [asCallable] at h
  | boolean b => simp [asCallable] at h
  | number n => simp [asCallable] at h
  | string s => simp [asCallable] at h
  | symbol sym => simp [asCallable] at h

/-- Source `BoundFunction::create` on a valid target reduces to one fresh
allocation snapshotting the target's prototype and is-constructor answer. -/
theorem create_eq {heap : Heap} {target : ObjId} {obj : ObjectState}
    (hobj : objectAt heap target = some obj)
    (thisv : JsValue) (args : List JsValue) :
    BoundFunction.create heap target thisv args =
      alloc heap
        ⟨obj.prototype,
         ObjectData.boundFunction ⟨target, thisv, args⟩
           (JsObject.is_constructor heap target), []⟩ := by
  unfold BoundFunction.create
  rw [hobj]

/-- Defining two distinct properties on a fresh property-less object yields
exactly those two own properties. -/
theorem getOwn_after_two_defines {heap : Heap} {f : ObjId} {w : ObjectState}
    (hw : objectAt heap f = some w)
    (k1 k2 : PropertyKey) (d1 d2 : PropertyDescriptor) (hne : k2 ≠ k1) :
    getOwnProperty (defineProperty (defineProperty heap f k1 d1) f k2 d2) f k1 = some d1 ∧
      getOwnProperty (defineProperty (defineProperty heap f k1 d1) f k2 d2) f k2 = some d2 := by
  have h1 := objectAt_defineProperty_self hw k1 d1
  have h2 := objectAt_defineProperty_self h1 k2 d2
  unfold getOwnProperty
  rw [h2]
  constructor
  · show findProp (upsert (upsert w.properties k1 d1) k2 d2) k1 = some d1
    rw [findProp_upsert_ne _ d2 (Ne.symm hne)]
    exact findProp_upsert_self _ k1 d1
  · exact findProp_upsert_self _ k2 d2

/-! Claim theorems. -/

/-- C6: for every callable target, `call(recv, x, y)` invokes the target
with receiver `recv` and the remaining arguments passed through unchanged in
order; when the receiver argument is omitted, the receiver is undefined. -/
theorem call_forwards_receiver_and_args
    (display : JsValue → String) (heap : Heap) (this : JsValue) (target : ObjId)
    (recv : JsValue) (rest : List JsValue)
    (hc : asCallable heap this = some target) :
    BuiltInFunctionObject.call display heap this (recv :: rest) =
        Except.ok ⟨target, recv, rest⟩ ∧
      BuiltInFunctionObject.call display heap this [] =
        Except.ok ⟨target, JsValue.undefined, []⟩ := by
  unfold BuiltInFunctionObject.call
  rw [hc]
  exact ⟨rfl, rfl⟩

/-- Witness for C6 at the concrete example heap. -/
theorem call_forwards_receiver_and_args_witness :
    BuiltInFunctionObject.call exampleDisplay exampleHeap (JsValue.object 0)
        (JsValue.string "recv" :: [JsValue.string "x", JsValue.string "y"]) =
        Except.ok ⟨0, JsValue.string "recv", [JsValue.string "x", JsValue.string "y"]⟩ ∧
      BuiltInFunctionObject.call exampleDisplay exampleHeap (JsValue.object 0) [] =
        Except.ok ⟨0, JsValue.undefined, []⟩ :=
  call_forwards_receiver_and_args exampleDisplay exampleHeap (JsValue.object 0) 0
    (JsValue.string "recv") [JsValue.string "x", JsValue.string "y"] (by rfl)

/-- C5: for every callable receiver, `apply` with a null or undefined
argArray invokes the target with receiver `thisArg` and an empty argument
list; with any other argArray it invokes the target with the list produced
by the array-like-to-list conversion, and a conversion failure propagates
unchanged. -/
theorem apply_forwards_list
    (display : JsValue → String)
    (conv : JsValue → Except JsError (List JsValue))
    (heap : Heap) (this : JsValue) (target : ObjId) (args : List JsValue)
    (hc : asCallable heap this = some target) :
    ((args.getD 1 JsValue.undefined).is_null_or_undefined = true →
      BuiltInFunctionObject.apply display conv heap this args =
        Except.ok ⟨target, args.getD 0 JsValue.undefined, []⟩) ∧
      ((args.getD 1 JsValue.undefined).is_null_or_undefined = false →
        (∀ lst, conv (args.getD 1 JsValue.undefined) = Except.ok lst →
          BuiltInFunctionObject.apply display conv heap this args =
            Except.ok ⟨target, args.getD 0 JsValue.undefined, lst⟩) ∧
        (∀ e, conv (args.getD 1 JsValue.undefined) = Except.error e →
          BuiltInFunctionObject.apply display conv heap this args =
            Except.error e)) := by
  simp only [BuiltInFunctionObject.apply, hc]
  constructor
  · intro hnull
    rw [hnull]
    rfl
  · intro hnotnull
    constructor
    · intro lst hconv
      rw [hnotnull, if_neg (by simp), hconv]
    · intro e hconv
      rw [hnotnull, if_neg (by simp), hconv]

/-- Witness for C5 at the concrete example heap: the argArray is an object,
the conversion yields a two-element list, and the null branch is vacuous. -/
theorem apply_forwards_list_witness :
    (((([JsValue.string "recv", JsValue.object 2] : List JsValue).getD 1
          JsValue.undefined).is_null_or_undefined = true →
      BuiltInFunctionObject.apply exampleDisplay exampleConv exampleHeap (JsValue.object 0)
          [JsValue.string "recv", JsValue.object 2] =
        Except.ok ⟨0, ([JsValue.string "recv", JsValue.object 2] : List JsValue).getD 0
          JsValue.undefined, []⟩) ∧
      (((([JsValue.string "recv", JsValue.object 2] : List JsValue).getD 1
          JsValue.undefined).is_null_or_undefined = false →
        (∀ lst, exampleConv (([JsValue.string "recv", JsValue.object 2] : List JsValue).getD 1
            JsValue.undefined) = Except.ok lst →
          BuiltInFunctionObject.apply exampleDisplay exampleConv exampleHeap (JsValue.object 0)
              [JsValue.string "recv", JsValue.object 2] =
            Except.ok ⟨0, ([JsValue.string "recv", JsValue.object 2] : List JsValue).getD 0
              JsValue.undefined, lst⟩) ∧
        (∀ e, exampleConv (([JsValue.string "recv", JsValue.object 2] : List JsValue).getD 1
            JsValue.undefined) = Except.error e →
          BuiltInFunctionObject.apply exampleDisplay exampleConv exampleHeap (JsValue.object 0)
              [JsValue.string "recv", JsValue.object 2] =
            Except.error e)))) :=
  apply_forwards_list exampleDisplay exampleConv exampleHeap (JsValue.object 0) 0
    [JsValue.string "recv", JsValue.object 2] (by rfl)

/-- C4 (amended): for every non-callable receiver, `call`, `apply` and
`bind` all fail with a TypeError-class thrown value and produce no call and
no wrapper; the messages of `call` and `apply` name the offending value's
display form, while `bind`'s message is one fixed string. -/
theorem not_callable_type_error
    (display : JsValue → String)
    (conv : JsValue → Except JsError (List JsValue))
    (heap : Heap) (v : JsValue) (args : List JsValue)
    (h : asCallable heap v = none) :
    BuiltInFunctionObject.call display heap v args =
        Except.error (JsError.typeError (display v ++ " is not a function")) ∧
      BuiltInFunctionObject.apply display conv heap v args =
        Except.error (JsError.typeError (display v ++ " is not a function")) ∧
      BuiltInFunctionObject.bind heap v args =
        Except.error (JsError.typeError
          "cannot bind `this` without a `[[Call]]` internal method") := by
  unfold BuiltInFunctionObject.call BuiltInFunctionObject.apply BuiltInFunctionObject.bind
  rw [h]
  exact ⟨rfl, rfl, rfl⟩

/-- Witness for C4 (amended) at the concrete example heap: object 2 is a
plain non-callable object. -/
theorem not_callable_type_error_witness :
    BuiltInFunctionObject.call exampleDisplay exampleHeap (JsValue.object 2) [] =
        Except.error (JsError.typeError
          (exampleDisplay (JsValue.object 2) ++ " is not a function")) ∧
      BuiltInFunctionObject.apply exampleDisplay exampleConv exampleHeap (JsValue.object 2) [] =
        Except.error (JsError.typeError
          (exampleDisplay (JsValue.object 2) ++ " is not a function")) ∧
      BuiltInFunctionObject.bind exampleHeap (JsValue.object 2) [] =
        Except.error (JsError.typeError
          "cannot bind `this` without a `[[Call]]` internal method") :=
  not_callable_type_error exampleDisplay exampleConv exampleHeap (JsValue.object 2) [] (by rfl)

/-- C4 counterexample: `bind`'s TypeError message is the same fixed string
for every offending value — for `undefined` and for the string value `foo`
alike — and that string nowhere contains either value's display form, so the
message does not name the offending value's display form. -/
theorem bind_message_ignores_display_counterexample :
    BuiltInFunctionObject.bind exampleHeap JsValue.undefined [] =
        Except.error (JsError.typeError
          "cannot bind `this` without a `[[Call]]` internal method") ∧
      BuiltInFunctionObject.bind exampleHeap (JsValue.string "foo") [] =
        Except.error (JsError.typeError
          "cannot bind `this` without a `[[Call]]` internal method") ∧
      containsSeq "undefined".toList
        "cannot bind `this` without a `[[Call]]` internal method".toList = false ∧
      containsSeq "foo".toList
        "cannot bind `this` without a `[[Call]]` internal method".toList = false :=
  ⟨rfl, rfl, by decide, by decide⟩

/-- C7: `SetFunctionName` derives `[description]` for a symbol with a
description and the empty string for one without; strings and indices keep
their textual form; a prefix is prepended separated by a space; and the
result is installed as a non-writable, non-enumerable, configurable `name`
property. -/
theorem set_function_name_installs_derived_name
    (heap : Heap) (f : ObjId) (obj : ObjectState)
    (hobj : objectAt heap f = some obj) :
    (∀ sym desc, sym.description = some desc →
      getOwnProperty (set_function_name heap f (PropertyKey.symbol sym) none) f
          (PropertyKey.string "name") =
        some ⟨JsValue.string ("[" ++ desc ++ "]"), false, false, true⟩) ∧
      (∀ sym, sym.description = none →
        getOwnProperty (set_function_name heap f (PropertyKey.symbol sym) none) f
            (PropertyKey.string "name") =
          some ⟨JsValue.string "", false, false, true⟩) ∧
      (∀ s, getOwnProperty (set_function_name heap f (PropertyKey.string s) none) f
          (PropertyKey.string "name") =
        some ⟨JsValue.string s, false, false, true⟩) ∧
      (∀ i, getOwnProperty (set_function_name heap f (PropertyKey.index i) none) f
          (PropertyKey.string "name") =
        some ⟨JsValue.string (toString i), false, false, true⟩) ∧
      (∀ key p, getOwnProperty (set_function_name heap f key (some p)) f
          (PropertyKey.string "name") =
        some ⟨JsValue.string (p ++ " " ++ functionName key), false, false, true⟩) := by
  have hself : ∀ key pfx,
      getOwnProperty (set_function_name heap f key pfx) f (PropertyKey.string "name") =
        some ⟨JsValue.string
          (match pfx with
           | some p => p ++ " " ++ functionName key
           | none => functionName key), false, false, true⟩ := by
    intro key pfx
    unfold set_function_name getOwnProperty
    rw [objectAt_defineProperty_self hobj]
    exact findProp_upsert_self _ _ _
  refine ⟨?_, ?_, ?_, ?_, ?_⟩
  · intro sym desc hdesc
    rw [hself]
    simp [functionName, hdesc]
  · intro sym hdesc
    rw [hself]
    simp [functionName, hdesc]
  · intro s
    exact hself (PropertyKey.string s) none
  · intro i
    exact hself (PropertyKey.index i) none
  · intro key p
    exact hself key (some p)

/-- Witness for C7 at the concrete example heap. -/
theorem set_function_name_installs_derived_name_witness :
    (∀ sym desc, sym.description = some desc →
      getOwnProperty (set_function_name exampleHeap 2 (PropertyKey.symbol sym) none) 2
          (PropertyKey.string "name") =
        some ⟨JsValue.string ("[" ++ desc ++ "]"), false, false, true⟩) ∧
      (∀ sym, sym.description = none →
        getOwnProperty (set_function_name exampleHeap 2 (PropertyKey.symbol sym) none) 2
            (PropertyKey.string "name") =
          some ⟨JsValue.string "", false, false, true⟩) ∧
      (∀ s, getOwnProperty (set_function_name exampleHeap 2 (PropertyKey.string s) none) 2
          (PropertyKey.string "name") =
        some ⟨JsValue.string s, false, false, true⟩) ∧
      (∀ i, getOwnProperty (set_function_name exampleHeap 2 (PropertyKey.index i) none) 2
          (PropertyKey.string "name") =
        some ⟨JsValue.string (toString i), false, false, true⟩) ∧
      (∀ key p, getOwnProperty (set_function_name exampleHeap 2 key (some p)) 2
          (PropertyKey.string "name") =
        some ⟨JsValue.string (p ++ " " ++ functionName key), false, false, true⟩) :=
  set_function_name_installs_derived_name exampleHeap 2 examplePlainObj (by rfl)

/-- C8 (amended): a `Native` callable with a resolvable name renders as
`function <name>() \x7b\n  [native Code]\n\x7d` — with a capital C in
`Code` — while a `Native-Closure` callable is not specially rendered and
yields the placeholder `TODO`. -/
theorem to_string_native_rendering
    (heap : Heap) (id : ObjId) (obj : ObjectState) (d : PropertyDescriptor) (s : String)
    (hobj : objectAt heap id = some obj)
    (hname : findProp obj.properties (PropertyKey.string "name") = some d)
    (hval : d.value = JsValue.string s) :
    (∀ k c, obj.data = ObjectData.function (Function.native k c) →
      BuiltInFunctionObject.to_string heap (JsValue.object id) =
        Except.ok (JsValue.string ("function " ++ s ++ "() \x7b\n  [native Code]\n\x7d"))) ∧
      (∀ k c cap, obj.data = ObjectData.function (Function.closure k c cap) →
        BuiltInFunctionObject.to_string heap (JsValue.object id) =
          Except.ok (JsValue.string "TODO")) := by
  have hget : get heap id (PropertyKey.string "name") = JsValue.string s := by
    rw [get_own_hit hobj hname, hval]
  constructor
  · intro k c hdata
    simp only [BuiltInFunctionObject.to_string, hobj, hdata, hget]
    rfl
  · intro k c cap hdata
    simp only [BuiltInFunctionObject.to_string, hobj, hdata, hget]
    rfl

/-- Witness for C8 (amended) at the concrete example heap: object 0 is a
native function named `f` (object 0's closure conjunct is vacuous). -/
theorem to_string_native_rendering_witness :
    (∀ k c, exampleObj.data = ObjectData.function (Function.native k c) →
      BuiltInFunctionObject.to_string exampleHeap (JsValue.object 0) =
        Except.ok (JsValue.string ("function " ++ "f" ++ "() \x7b\n  [native Code]\n\x7d"))) ∧
      (∀ k c cap, exampleObj.data = ObjectData.function (Function.closure k c cap) →
        BuiltInFunctionObject.to_string exampleHeap (JsValue.object 0) =
          Except.ok (JsValue.string "TODO")) :=
  to_string_native_rendering exampleHeap 0 exampleObj
    ⟨JsValue.string "f", false, false, true⟩ "f" (by rfl) (by rfl) (by rfl)

/-- C8 counterexample: at the native function named `f` the rendering is
`function f() \x7b\n  [native Code]\n\x7d`, which differs from the claimed
`function f() \x7b\n  [native code]\n\x7d` (lowercase `code`); and the
native closure named `g` renders as `TODO`, not as a native-code string. -/
theorem to_string_native_code_counterexample :
    BuiltInFunctionObject.to_string exampleHeap (JsValue.object 0) =
        Except.ok (JsValue.string "function f() \x7b\n  [native Code]\n\x7d") ∧
      ("function f() \x7b\n  [native Code]\n\x7d" : String) ≠
        "function f() \x7b\n  [native code]\n\x7d" ∧
      BuiltInFunctionObject.to_string exampleHeap (JsValue.object 1) =
        Except.ok (JsValue.string "TODO") ∧
      (JsValue.string "TODO" : JsValue) ≠
        JsValue.string "function g() \x7b\n  [native code]\n\x7d" :=
  ⟨rfl, by decide, rfl, by decide⟩

/-- Preserving the data slot: defining two properties on an object does not
change what `boundData` observes. -/
theorem boundData_two_defines {heap : Heap} {f : ObjId} {w : ObjectState}
    (hw : objectAt heap f = some w)
    (k1 k2 : PropertyKey) (d1 d2 : PropertyDescriptor) :
    boundData (defineProperty (defineProperty heap f k1 d1) f k2 d2) f =
      boundData heap f := by
  have h1 := objectAt_defineProperty_self hw k1 d1
  have h2 := objectAt_defineProperty_self h1 k2 d2
  unfold boundData
  rw [h2, hw]

/-- C2: a wrapper created by `bind(target, thisArg, a, b)` stores exactly the
target, the receiver `thisArg` and the bound-argument sequence `[a, b]`, and
its stored data forwards a call with caller arguments `(c, d)` — whatever
receiver the caller supplies — to the target with receiver `thisArg` and
argument list `(a, b, c, d)`. -/
theorem bind_stores_and_forwards
    (heap : Heap) (this : JsValue) (target : ObjId)
    (thisArg a b c d r : JsValue)
    (hc : asCallable heap this = some target) :
    ∃ h f, BuiltInFunctionObject.bind heap this [thisArg, a, b] = Except.ok (h, f) ∧
      boundData h f = some ⟨target, thisArg, [a, b]⟩ ∧
      ∀ bf, boundData h f = some bf →
        boundFunctionCallInternal bf r [c, d] = ⟨target, thisArg, [a, b, c, d]⟩ := by
  obtain ⟨hv, obj, hobj⟩ := asCallable_some hc
  simp only [BuiltInFunctionObject.bind, hc, set_function_name, create_eq hobj]
  refine ⟨_, _, rfl, ?_, ?_⟩
  · rw [boundData_two_defines (objectAt_alloc_self _ _)]
    unfold boundData
    rw [objectAt_alloc_self]
    rfl
  · intro bf hbf
    rw [boundData_two_defines (objectAt_alloc_self _ _)] at hbf
    unfold boundData at hbf
    rw [objectAt_alloc_self] at hbf
    injection hbf with hbf
    subst hbf
    rfl

/-- Witness for C2 at the concrete example heap. -/
theorem bind_stores_and_forwards_witness :
    ∃ h f, BuiltInFunctionObject.bind exampleHeap (JsValue.object 0)
        [JsValue.string "T", JsValue.string "a", JsValue.string "b"] = Except.ok (h, f) ∧
      boundData h f = some ⟨0, JsValue.string "T", [JsValue.string "a", JsValue.string "b"]⟩ ∧
      ∀ bf, boundData h f = some bf →
        boundFunctionCallInternal bf (JsValue.string "r")
            [JsValue.string "c", JsValue.string "d"] =
          ⟨0, JsValue.string "T",
            [JsValue.string "a", JsValue.string "b", JsValue.string "c", JsValue.string "d"]⟩ :=
  bind_stores_and_forwards exampleHeap (JsValue.object 0) 0 (JsValue.string "T")
    (JsValue.string "a") (JsValue.string "b") (JsValue.string "c") (JsValue.string "d")
    (JsValue.string "r") (by rfl)

/-- C10: the wrapper built by `BoundFunctionCreate` snapshots the target's
prototype and is-constructor answer at creation time: the created object
carries exactly those values, and replacing the target object in the heap
afterwards leaves the wrapper — including its constructor capability —
unchanged. -/
theorem bound_wrapper_snapshots_target
    (heap : Heap) (target : ObjId) (thisv : JsValue) (args : List JsValue)
    (obj : ObjectState)
    (hobj : objectAt heap target = some obj) :
    ∃ wrapper,
      objectAt (BoundFunction.create heap target thisv args).1
          (BoundFunction.create heap target thisv args).2 = some wrapper ∧
      wrapper.prototype = obj.prototype ∧
      wrapper.data = ObjectData.boundFunction ⟨target, thisv, args⟩
        (JsObject.is_constructor heap target) ∧
      (∀ newObj,
        objectAt (updateAt (BoundFunction.create heap target thisv args).1 target newObj)
          (BoundFunction.create heap target thisv args).2 = some wrapper) ∧
      (∀ newObj,
        JsObject.is_constructor
            (updateAt (BoundFunction.create heap target thisv args).1 target newObj)
            (BoundFunction.create heap target thisv args).2 =
          JsObject.is_constructor heap target) := by
  have hne : target ≠ heap.objects.length := (objectAt_some_lt hobj).ne
  simp only [create_eq hobj, alloc_snd]
  refine ⟨_, objectAt_alloc_self' _ _, rfl, rfl, ?_, ?_⟩
  · intro newObj
    rw [objectAt_updateAt_ne _ hne]
    exact objectAt_alloc_self' _ _
  · intro newObj
    unfold JsObject.is_constructor
    rw [objectAt_updateAt_ne _ hne, objectAt_alloc_self']

/-- Witness for C10 at the concrete example heap. -/
theorem bound_wrapper_snapshots_target_witness :
    ∃ wrapper,
      objectAt (BoundFunction.create exampleHeap 0 JsValue.null []).1
          (BoundFunction.create exampleHeap 0 JsValue.null []).2 = some wrapper ∧
      wrapper.prototype = exampleObj.prototype ∧
      wrapper.data = ObjectData.boundFunction ⟨0, JsValue.null, []⟩
        (JsObject.is_constructor exampleHeap 0) ∧
      (∀ newObj,
        objectAt (updateAt (BoundFunction.create exampleHeap 0 JsValue.null []).1 0 newObj)
          (BoundFunction.create exampleHeap 0 JsValue.null []).2 = some wrapper) ∧
      (∀ newObj,
        JsObject.is_constructor
            (updateAt (BoundFunction.create exampleHeap 0 JsValue.null []).1 0 newObj)
            (BoundFunction.create exampleHeap 0 JsValue.null []).2 =
          JsObject.is_constructor exampleHeap 0) :=
  bound_wrapper_snapshots_target exampleHeap 0 JsValue.null [] exampleObj (by rfl)

/-- C9: a native routine registered through `make_builtin_fn` with declared
length `n` and display name `s` gets `length` equal to `n` and `name` equal
to `s`, both non-writable, non-enumerable and configurable, and the created
function is not a constructor. -/
theorem make_builtin_fn_installs_length_and_name
    (heap : Heap) (fnptr : Nat) (name : String) (parent : ObjId)
    (length : Nat) (fnproto : JsValue)
    (hparent : parent < heap.objects.length) :
    ∃ h fid, make_builtin_fn heap fnptr name parent length fnproto = (h, fid) ∧
      getOwnProperty h fid (PropertyKey.string "length") =
        some ⟨JsValue.number (JsNumber.finite (length : ℚ)), false, false, true⟩ ∧
      getOwnProperty h fid (PropertyKey.string "name") =
        some ⟨JsValue.string name, false, false, true⟩ ∧
      JsObject.is_constructor h fid = false := by
  have hne : parent ≠ heap.objects.length := hparent.ne
  have hw := objectAt_alloc_self' heap
    ⟨fnproto, ObjectData.function (Function.native fnptr false), []⟩
  have htwo := getOwn_after_two_defines hw (PropertyKey.string "length")
    (PropertyKey.string "name")
    ⟨JsValue.number (JsNumber.finite (length : ℚ)), false, false, true⟩
    ⟨JsValue.string name, false, false, true⟩ (by decide)
  simp only [make_builtin_fn, alloc_snd, stringToPropertyKey]
  refine ⟨_, _, rfl, ?_, ?_, ?_⟩
  · unfold getOwnProperty
    rw [objectAt_defineProperty_ne hne]
    have := htwo.1
    unfold getOwnProperty at this
    exact this
  · unfold getOwnProperty
    rw [objectAt_defineProperty_ne hne]
    have := htwo.2
    unfold getOwnProperty at this
    exact this
  · unfold JsObject.is_constructor
    rw [objectAt_defineProperty_ne hne]
    have h1 := objectAt_defineProperty_self hw (PropertyKey.string "length")
      ⟨JsValue.number (JsNumber.finite (length : ℚ)), false, false, true⟩
    have h2 := objectAt_defineProperty_self h1 (PropertyKey.string "name")
      ⟨JsValue.string name, false, false, true⟩
    rw [h2]
    rfl

/-- Witness for C9 at the concrete example heap, registering a native
routine named `parseInt` with length 1 on object 2. -/
theorem make_builtin_fn_installs_length_and_name_witness :
    ∃ h fid, make_builtin_fn exampleHeap 7 "parseInt" 2 1 JsValue.null = (h, fid) ∧
      getOwnProperty h fid (PropertyKey.string "length") =
        some ⟨JsValue.number (JsNumber.finite ((1 : Nat) : ℚ)), false, false, true⟩ ∧
      getOwnProperty h fid (PropertyKey.string "name") =
        some ⟨JsValue.string "parseInt", false, false, true⟩ ∧
      JsObject.is_constructor h fid = false :=
  make_builtin_fn_installs_length_and_name exampleHeap 7 "parseInt" 2 1 JsValue.null
    (by decide)

/-- C1: the derived `length` installed by `bind` is 0 when the target has no
own `length` property or its value is not a number; positive infinity when
the target's length is positive infinity, regardless of the bound-argument
count; 0 when it is negative infinity; and otherwise the maximum of the
integer-coerced target length minus the number of bound (prepended)
arguments and 0. -/
theorem bind_derived_length
    (heap : Heap) (this : JsValue) (args : List JsValue) (target : ObjId)
    (obj : ObjectState)
    (hc : asCallable heap this = some target)
    (hobj : objectAt heap target = some obj) :
    ∃ h f, BuiltInFunctionObject.bind heap this args = Except.ok (h, f) ∧
      (getOwnProperty heap target (PropertyKey.string "length") = none →
        getOwnProperty h f (PropertyKey.string "length") =
          some ⟨JsValue.number (JsNumber.finite 0), false, false, true⟩) ∧
      (∀ d, getOwnProperty heap target (PropertyKey.string "length") = some d →
        (∀ num, d.value ≠ JsValue.number num) →
        getOwnProperty h f (PropertyKey.string "length") =
          some ⟨JsValue.number (JsNumber.finite 0), false, false, true⟩) ∧
      (∀ d, getOwnProperty heap target (PropertyKey.string "length") = some d →
        d.value = JsValue.number JsNumber.posInf →
        getOwnProperty h f (PropertyKey.string "length") =
          some ⟨JsValue.number JsNumber.posInf, false, false, true⟩) ∧
      (∀ d, getOwnProperty heap target (PropertyKey.string "length") = some d →
        d.value = JsValue.number JsNumber.negInf →
        getOwnProperty h f (PropertyKey.string "length") =
          some ⟨JsValue.number (JsNumber.finite 0), false, false, true⟩) ∧
      (∀ d num n, getOwnProperty heap target (PropertyKey.string "length") = some d →
        d.value = JsValue.number num →
        toIntegerOrInfinity num = IntegerOrInfinity.integer n →
        getOwnProperty h f (PropertyKey.string "length") =
          some ⟨JsValue.number (JsNumber.finite
            ((max (n - ((args.drop 1).length : Int)) 0 : Int) : ℚ)), false, false, true⟩) := by
  have hlt := objectAt_some_lt hobj
  simp only [BuiltInFunctionObject.bind, hc, set_function_name, stringToPropertyKey,
    functionName, create_eq hobj, alloc_snd]
  set W : ObjectState :=
    ⟨obj.prototype,
     ObjectData.boundFunction ⟨target, args.getD 0 JsValue.undefined, List.drop 1 args⟩
       (JsObject.is_constructor heap target), []⟩ with hWdef
  have hobjW : objectAt (alloc heap W).1 target = some obj := by
    rw [objectAt_alloc_lt _ hlt]
    exact hobj
  have hwW : objectAt (alloc heap W).1 heap.objects.length = some W :=
    objectAt_alloc_self' heap W
  refine ⟨_, _, rfl, ?_, ?_, ?_, ?_, ?_⟩
  · intro hnone
    unfold getOwnProperty at hnone
    rw [hobj] at hnone
    have hhas : hasOwnProperty (alloc heap W).1 target (PropertyKey.string "length") = false := by
      unfold hasOwnProperty getOwnProperty
      rw [hobjW, hnone]
      rfl
    rw [hhas, if_neg (by simp)]
    exact (getOwn_after_two_defines hwW _ _ _ _ (by decide)).1
  · intro d hd hnotnum
    unfold getOwnProperty at hd
    rw [hobj] at hd
    have hhas : hasOwnProperty (alloc heap W).1 target (PropertyKey.string "length") = true := by
      unfold hasOwnProperty getOwnProperty
      rw [hobjW, hd]
      rfl
    have hget : get (alloc heap W).1 target (PropertyKey.string "length") = d.value :=
      get_own_hit hobjW hd
    rw [hhas, if_pos rfl, hget]
    cases hdv : d.value with
    | number num => exact absurd hdv (hnotnum num)
    | undefined => exact (getOwn_after_two_defines hwW _ _ _ _ (by decide)).1
    | null => exact (getOwn_after_two_defines hwW _ _ _ _ (by decide)).1
    | boolean b => exact (getOwn_after_two_defines hwW _ _ _ _ (by decide)).1
    | string s => exact (getOwn_after_two_defines hwW _ _ _ _ (by decide)).1
    | symbol sym => exact (getOwn_after_two_defines hwW _ _ _ _ (by decide)).1
    | object o => exact (getOwn_after_two_defines hwW _ _ _ _ (by decide)).1
  · intro d hd hval
    unfold getOwnProperty at hd
    rw [hobj] at hd
    have hhas : hasOwnProperty (alloc heap W).1 target (PropertyKey.string "length") = true := by
      unfold hasOwnProperty getOwnProperty
      rw [hobjW, hd]
      rfl
    have hget : get (alloc heap W).1 target (PropertyKey.string "length") = d.value :=
      get_own_hit hobjW hd
    rw [hhas, if_pos rfl, hget, hval]
    exact (getOwn_after_two_defines hwW _ _ _ _ (by decide)).1
  · intro d hd hval
    unfold getOwnProperty at hd
    rw [hobj] at hd
    have hhas : hasOwnProperty (alloc heap W).1 target (PropertyKey.string "length") = true := by
      unfold hasOwnProperty getOwnProperty
      rw [hobjW, hd]
      rfl
    have hget : get (alloc heap W).1 target (PropertyKey.string "length") = d.value :=
      get_own_hit hobjW hd
    rw [hhas, if_pos rfl, hget, hval]
    exact (getOwn_after_two_defines hwW _ _ _ _ (by decide)).1
  · intro d num n hd hval htii
    unfold getOwnProperty at hd
    rw [hobj] at hd
    have hhas : hasOwnProperty (alloc heap W).1 target (PropertyKey.string "length") = true := by
      unfold hasOwnProperty getOwnProperty
      rw [hobjW, hd]
      rfl
    have hget : get (alloc heap W).1 target (PropertyKey.string "length") = d.value :=
      get_own_hit hobjW hd
    rw [hhas, if_pos rfl, hget, hval]
    simp only [htii]
    exact (getOwn_after_two_defines hwW _ _ _ _ (by decide)).1

/-- Witness for C1 at the concrete example heap: the target has own length
5 and two arguments are bound. -/
theorem bind_derived_length_witness :
    ∃ h f, BuiltInFunctionObject.bind exampleHeap (JsValue.object 0)
        [JsValue.undefined, JsValue.string "a", JsValue.string "b"] = Except.ok (h, f) ∧
      (getOwnProperty exampleHeap 0 (PropertyKey.string "length") = none →
        getOwnProperty h f (PropertyKey.string "length") =
          some ⟨JsValue.number (JsNumber.finite 0), false, false, true⟩) ∧
      (∀ d, getOwnProperty exampleHeap 0 (PropertyKey.string "length") = some d →
        (∀ num, d.value ≠ JsValue.number num) →
        getOwnProperty h f (PropertyKey.string "length") =
          some ⟨JsValue.number (JsNumber.finite 0), false, false, true⟩) ∧
      (∀ d, getOwnProperty exampleHeap 0 (PropertyKey.string "length") = some d →
        d.value = JsValue.number JsNumber.posInf →
        getOwnProperty h f (PropertyKey.string "length") =
          some ⟨JsValue.number JsNumber.posInf, false, false, true⟩) ∧
      (∀ d, getOwnProperty exampleHeap 0 (PropertyKey.string "length") = some d →
        d.value = JsValue.number JsNumber.negInf →
        getOwnProperty h f (PropertyKey.string "length") =
          some ⟨JsValue.number (JsNumber.finite 0), false, false, true⟩) ∧
      (∀ d num n, getOwnProperty exampleHeap 0 (PropertyKey.string "length") = some d →
        d.value = JsValue.number num →
        toIntegerOrInfinity num = IntegerOrInfinity.integer n →
        getOwnProperty h f (PropertyKey.string "length") =
          some ⟨JsValue.number (JsNumber.finite
            ((max (n - ((([JsValue.undefined, JsValue.string "a", JsValue.string "b"] :
              List JsValue).drop 1).length : Int)) 0 : Int) : ℚ)), false, false, true⟩) :=
  bind_derived_length exampleHeap (JsValue.object 0)
    [JsValue.undefined, JsValue.string "a", JsValue.string "b"] 0 exampleObj
    (by rfl) (by rfl)

/-- C3: the wrapper's `name` installed by `bind` is the target's name
prefixed with `bound` and a space — `bound f` for a target named `f`, and
exactly `bound ` when the target's name is not a string or is absent — and
it is installed as a non-writable, non-enumerable, configurable property. -/
theorem bind_derived_name
    (heap : Heap) (this : JsValue) (args : List JsValue) (target : ObjId)
    (obj : ObjectState)
    (hc : asCallable heap this = some target)
    (hobj : objectAt heap target = some obj) :
    ∃ h f, BuiltInFunctionObject.bind heap this args = Except.ok (h, f) ∧
      (∀ d s, getOwnProperty heap target (PropertyKey.string "name") = some d →
        d.value = JsValue.string s →
        getOwnProperty h f (PropertyKey.string "name") =
          some ⟨JsValue.string ("bound " ++ s), false, false, true⟩) ∧
      (∀ d, getOwnProperty heap target (PropertyKey.string "name") = some d →
        (∀ s, d.value ≠ JsValue.string s) →
        getOwnProperty h f (PropertyKey.string "name") =
          some ⟨JsValue.string "bound ", false, false, true⟩) ∧
      (getOwnProperty heap target (PropertyKey.string "name") = none →
        (∀ p, obj.prototype ≠ JsValue.object p) →
        getOwnProperty h f (PropertyKey.string "name") =
          some ⟨JsValue.string "bound ", false, false, true⟩) := by
  have hlt := objectAt_some_lt hobj
  have hne2 : heap.objects.length ≠ target := hlt.ne'
  simp only [BuiltInFunctionObject.bind, hc, set_function_name, stringToPropertyKey,
    functionName, create_eq hobj, alloc_snd]
  set W : ObjectState :=
    ⟨obj.prototype,
     ObjectData.boundFunction ⟨target, args.getD 0 JsValue.undefined, List.drop 1 args⟩
       (JsObject.is_constructor heap target), []⟩ with hWdef
  have hobjW : objectAt (alloc heap W).1 target = some obj := by
    rw [objectAt_alloc_lt _ hlt]
    exact hobj
  have hwW : objectAt (alloc heap W).1 heap.objects.length = some W :=
    objectAt_alloc_self' heap W
  have hobjH2 : ∀ dl : PropertyDescriptor,
      objectAt (defineProperty (alloc heap W).1 heap.objects.length
        (PropertyKey.string "length") dl) target = some obj := by
    intro dl
    rw [objectAt_defineProperty_ne hne2]
    exact hobjW
  refine ⟨_, _, rfl, ?_, ?_, ?_⟩
  · intro d s hd hval
    unfold getOwnProperty at hd
    rw [hobj] at hd
    have hgetname : ∀ dl : PropertyDescriptor,
        get (defineProperty (alloc heap W).1 heap.objects.length
          (PropertyKey.string "length") dl) target (PropertyKey.string "name") =
          JsValue.string s := by
      intro dl
      rw [get_own_hit (hobjH2 dl) hd, hval]
    rw [hgetname]
    exact (getOwn_after_two_defines hwW _ _ _ _ (by decide)).2
  · intro d hd hnotstr
    unfold getOwnProperty at hd
    rw [hobj] at hd
    have hgetname : ∀ dl : PropertyDescriptor,
        get (defineProperty (alloc heap W).1 heap.objects.length
          (PropertyKey.string "length") dl) target (PropertyKey.string "name") =
          d.value := by
      intro dl
      exact get_own_hit (hobjH2 dl) hd
    rw [hgetname]
    cases hdv : d.value with
    | string s => exact absurd hdv (hnotstr s)
    | undefined => exact (getOwn_after_two_defines hwW _ _ _ _ (by decide)).2
    | null => exact (getOwn_after_two_defines hwW _ _ _ _ (by decide)).2
    | boolean b => exact (getOwn_after_two_defines hwW _ _ _ _ (by decide)).2
    | number m => exact (getOwn_after_two_defines hwW _ _ _ _ (by decide)).2
    | symbol sym => exact (getOwn_after_two_defines hwW _ _ _ _ (by decide)).2
    | object o => exact (getOwn_after_two_defines hwW _ _ _ _ (by decide)).2
  · intro hnone hproto
    unfold getOwnProperty at hnone
    rw [hobj] at hnone
    have hgetname : ∀ dl : PropertyDescriptor,
        get (defineProperty (alloc heap W).1 heap.objects.length
          (PropertyKey.string "length") dl) target (PropertyKey.string "name") =
          JsValue.undefined := by
      intro dl
      exact get_own_miss (hobjH2 dl) hnone hproto
    rw [hgetname]
    exact (getOwn_after_two_defines hwW _ _ _ _ (by decide)).2

/-- Witness for C3 at the concrete example heap: the target's own `name` is
the string `f`. -/
theorem bind_derived_name_witness :
    ∃ h f, BuiltInFunctionObject.bind exampleHeap (JsValue.object 0)
        [JsValue.undefined] = Except.ok (h, f) ∧
      (∀ d s, getOwnProperty exampleHeap 0 (PropertyKey.string "name") = some d →
        d.value = JsValue.string s →
        getOwnProperty h f (PropertyKey.string "name") =
          some ⟨JsValue.string ("bound " ++ s), false, false, true⟩) ∧
      (∀ d, getOwnProperty exampleHeap 0 (PropertyKey.string "name") = some d →
        (∀ s, d.value ≠ JsValue.string s) →
        getOwnProperty h f (PropertyKey.string "name") =
          some ⟨JsValue.string "bound ", false, false, true⟩) ∧
      (getOwnProperty exampleHeap 0 (PropertyKey.string "name") = none →
        (∀ p, exampleObj.prototype ≠ JsValue.object p) →
        getOwnProperty h f (PropertyKey.string "name") =
          some ⟨JsValue.string "bound ", false, false, true⟩) :=
  bind_derived_name exampleHeap (JsValue.object 0) [JsValue.undefined] 0 exampleObj
    (by rfl) (by rfl)

end Boa
